import Mathlib

/-!
# Verification of the One Piece IoT backend (`server.js` and its revisions)

This file gives a shallow embedding, in Lean 4, of the core logic of the
Node server of the repository: the spoken-text normalizer `norm`, the fuzzy
name-to-identifier resolver `findIdByName`, the latest-reading locator
(the `ORDER BY reading_id DESC LIMIT 1` join query), the Alexa intent
handlers (query latest, save new, update latest, delete latest), and the
input validation of the `POST /addReading` REST route.

Conventions of the embedding:
* JavaScript strings are Lean `String` (a list of characters); the ASCII
  branch of `String.prototype.toLowerCase` is modelled per character
  (the normalizer strips every non-ASCII character right afterwards, so
  the non-ASCII Unicode lowercase mappings are irrelevant to every
  comparison the code performs).
* JavaScript numbers reaching the persistence layer are modelled by
  `JNum` (NaN, signed infinity, or a finite rational); `Number(x)`
  coercion is `jsToNumber`, with decimal string literals parsed by
  `jsStringToNumber` (exponent and hexadecimal literals are out of the
  modelled input fragment and map to NaN, which the validation code
  rejects exactly as it rejects NaN).
* Possibly-`undefined` slot values are `Option String`.
* The MySQL database is a `Db` value: a list of readings plus the two
  reference tables and the AUTO_INCREMENT counter; each handler returns
  its spoken reply, the number of persistence calls of each mutating
  kind it issued, and the database state it leaves behind.
-/

namespace Srv

/-! ## Characters and the normalizer (`norm`, src/server.js lines 51-57) -/

/-- ASCII lowercase step of JavaScript `toLowerCase`: `A`-`Z` (codes 65-90)
map to `a`-`z` (codes 97-122); every other character is returned unchanged. -/
def jsToLowerChar (c : Char) : Char :=
  if 65 ≤ c.toNat ∧ c.toNat ≤ 90 then Char.ofNat (c.toNat + 32) else c

/-- The character class kept by the regex replace `[^a-z0-9 ]` → `""`
(applied after lowercasing): lowercase letters, digits, and the space. -/
def keepChar (c : Char) : Bool :=
  decide ((97 ≤ c.toNat ∧ c.toNat ≤ 122) ∨ (48 ≤ c.toNat ∧ c.toNat ≤ 57) ∨ c.toNat = 32)

/-- Is the character a space (the only whitespace that survives the
character-class strip, hence the only one `\s+` can still match)? -/
def isSpaceChar (c : Char) : Bool := decide (c = ' ')

/-- The regex replace `\s+` → `" "` on a string whose only whitespace is the
space character: every run of adjacent spaces collapses to a single space. -/
def collapseSpaces : List Char → List Char
  | [] => []
  | [c] => [c]
  | a :: b :: rest =>
    if isSpaceChar a && isSpaceChar b then collapseSpaces (b :: rest)
    else a :: collapseSpaces (b :: rest)

/-- `String.prototype.trim` on a string whose only whitespace is the space
character: drop leading and trailing spaces. -/
def trimSpaces (l : List Char) : List Char :=
  (((l.dropWhile isSpaceChar).reverse).dropWhile isSpaceChar).reverse

/-- `norm` on the character list: lowercase, strip everything outside
`[a-z0-9 ]`, collapse whitespace runs, trim. -/
def normList (l : List Char) : List Char :=
  trimSpaces (collapseSpaces ((l.map jsToLowerChar).filter keepChar))

/-- `norm` from src/server.js lines 51-57 (identical in part_000 lines
175-177): `String(s || '').toLowerCase().replace(/[^a-z0-9 ]/g, '')
.replace(/\s+/g, ' ').trim()`, for an input that is already a string. -/
def norm (s : String) : String := ⟨normList s.data⟩

/-- `norm` applied to a possibly-`undefined` value: `String(s || '')`
turns `undefined` (and the empty string itself) into `""`. -/
def normOpt (s : Option String) : String := norm (s.getD "")

/-! ## Name resolver (`findIdByName`, src/server.js lines 59-74) -/

/-- One row of a reference table (islands or characters): identifier and
display name, as selected by `island_id AS id, island_name AS name`. -/
structure Entity where
  id : Int
  name : String
deriving DecidableEq, Repr

/-- Substring scan: does `t` occur as a contiguous block of `s`?
(`true` when `t` is empty, as for JavaScript `includes`). -/
def isInfixOfB (t : List Char) : List Char → Bool
  | [] => t.isEmpty
  | a :: rest => t.isPrefixOf (a :: rest) || isInfixOfB t rest

/-- The scan decides contiguous containment. -/
theorem isInfixOfB_iff (t s : List Char) : isInfixOfB t s = true ↔ t <:+: s := by
  induction s with
  | nil =>
    simp only [isInfixOfB, List.isEmpty_iff, List.infix_nil]
  | cons a rest ih =>
    simp only [isInfixOfB, Bool.or_eq_true, List.isPrefixOf_iff_prefix, ih,
      List.infix_cons_iff]

/-- `s.includes(t)` on JavaScript strings: `t` occurs contiguously in `s`
(`true` when `t` is empty). -/
def containsStr (s t : String) : Bool := isInfixOfB t.data s.data

/-- The exact-pass predicate of `findIdByName`:
`x => norm(x.name) === target`. -/
def exactMatch (target : String) (x : Entity) : Bool :=
  decide (norm x.name = target)

/-- The partial-pass predicate of `findIdByName`:
`x => norm(x.name).includes(target) || target.includes(norm(x.name))`. -/
def partialMatch (target : String) (x : Entity) : Bool :=
  containsStr (norm x.name) target || containsStr target (norm x.name)

/-- `findIdByName` from src/server.js lines 59-74 (identical in part_000
lines 178-185): normalize the spoken phrase, bail out on the empty target,
then a first-match exact scan and, failing that, a first-match symmetric
substring scan. -/
def findIdByName (list : List Entity) (spokenName : Option String) : Option Int :=
  let target := normOpt spokenName
  if target = "" then none
  else
    match list.find? (exactMatch target) with
    | some exact => some exact.id
    | none =>
      match list.find? (partialMatch target) with
      | some p => some p.id
      | none => none

/-- The hard-coded island reference list of src/server.js lines 35-39. -/
def ISLANDS : List Entity := [⟨1, "East Blue"⟩, ⟨2, "Alabasta"⟩]

/-- The hard-coded character reference list of src/server.js lines 41-46. -/
def CHARACTERS : List Entity := [⟨1, "Luffy"⟩, ⟨2, "Zoro"⟩, ⟨3, "Nami"⟩]

/-! ## Normalizer idempotence infrastructure -/

/-- Characters kept by the strip are fixed points of the lowercase step:
lowercase letters, digits and the space are outside the `A`-`Z` range. -/
theorem jsToLowerChar_of_keep {c : Char} (h : keepChar c = true) :
    jsToLowerChar c = c := by
  have h' := of_decide_eq_true h
  unfold jsToLowerChar
  rw [if_neg]
  omega

/-- A list of kept characters is unchanged by the lowercase map. -/
theorem map_jsToLowerChar_of_keep {l : List Char}
    (h : ∀ c ∈ l, keepChar c = true) : l.map jsToLowerChar = l := by
  induction l with
  | nil => rfl
  | cons a t ih =>
    simp only [List.map_cons, List.cons.injEq]
    exact ⟨jsToLowerChar_of_keep (h a (List.mem_cons_self a t)),
      ih fun c hc => h c (List.mem_cons_of_mem a hc)⟩

/-- Space collapsing never invents characters. -/
theorem mem_collapseSpaces {a : Char} {l : List Char}
    (h : a ∈ collapseSpaces l) : a ∈ l := by
  induction l using collapseSpaces.induct with
  | case1 => simp [collapseSpaces] at h
  | case2 c => simpa [collapseSpaces] using h
  | case3 x y rest hsp ih =>
    rw [collapseSpaces, if_pos hsp] at h
    exact List.mem_cons_of_mem x (ih h)
  | case4 x y rest hsp ih =>
    rw [collapseSpaces, if_neg hsp] at h
    rcases List.mem_cons.mp h with h | h
    · exact h ▸ List.mem_cons_self x _
    · exact List.mem_cons_of_mem x (ih h)

/-- Space collapsing keeps the head of the list. -/
theorem collapseSpaces_cons (x : Char) (xs : List Char) :
    ∃ ys, collapseSpaces (x :: xs) = x :: ys := by
  induction xs generalizing x with
  | nil => exact ⟨[], rfl⟩
  | cons b rest ih =>
    by_cases hsp : (isSpaceChar x && isSpaceChar b) = true
    · rw [collapseSpaces, if_pos hsp]
      have hx : x = ' ' := by
        simp only [isSpaceChar, Bool.and_eq_true, decide_eq_true_eq] at hsp
        exact hsp.1
      have hb : b = ' ' := by
        simp only [isSpaceChar, Bool.and_eq_true, decide_eq_true_eq] at hsp
        exact hsp.2
      obtain ⟨ys, hys⟩ := ih b
      exact ⟨ys, by rw [hys, hx, hb]⟩
    · rw [collapseSpaces, if_neg hsp]
      exact ⟨collapseSpaces (b :: rest), rfl⟩

/-- The adjacency relation established by collapsing: no two neighbouring
characters are both spaces. -/
def NoTwoSpaces (l : List Char) : Prop :=
  List.Chain' (fun a b => ¬(a = ' ' ∧ b = ' ')) l

/-- Collapsing runs of spaces leaves no two adjacent spaces. -/
theorem noTwoSpaces_collapseSpaces (l : List Char) :
    NoTwoSpaces (collapseSpaces l) := by
  induction l using collapseSpaces.induct with
  | case1 => simp [collapseSpaces, NoTwoSpaces]
  | case2 c => simp [collapseSpaces, NoTwoSpaces]
  | case3 x y rest hsp ih =>
    rw [collapseSpaces, if_pos hsp]
    exact ih
  | case4 x y rest hsp ih =>
    rw [collapseSpaces, if_neg hsp]
    obtain ⟨ys, hys⟩ := collapseSpaces_cons y rest
    rw [hys] at ih ⊢
    refine List.chain'_cons.mpr ⟨?_, ih⟩
    intro ⟨hx, hy⟩
    simp [isSpaceChar, hx, hy] at hsp

/-- A list with no two adjacent spaces is a fixed point of collapsing. -/
theorem collapseSpaces_eq_self {l : List Char} (h : NoTwoSpaces l) :
    collapseSpaces l = l := by
  induction l using collapseSpaces.induct with
  | case1 => rfl
  | case2 c => rfl
  | case3 x y rest hsp ih =>
    exfalso
    rcases List.chain'_cons.mp h with ⟨hxy, _⟩
    simp only [isSpaceChar, Bool.and_eq_true, decide_eq_true_eq] at hsp
    exact hxy hsp
  | case4 x y rest hsp ih =>
    rw [collapseSpaces, if_neg hsp, ih (List.chain'_cons.mp h).2]

/-- Trimming only removes characters from the two ends: the result is a
contiguous piece of the input. -/
theorem trimSpaces_le (l : List Char) : trimSpaces l <:+: l := by
  have h1 : l.dropWhile isSpaceChar <:+ l := List.dropWhile_suffix isSpaceChar
  have h2 : (l.dropWhile isSpaceChar).reverse.dropWhile isSpaceChar <:+
      (l.dropWhile isSpaceChar).reverse := List.dropWhile_suffix isSpaceChar
  have h3 : trimSpaces l <+: l.dropWhile isSpaceChar := by
    rw [← List.reverse_suffix]
    simpa [trimSpaces] using h2
  obtain ⟨t, ht⟩ := h3
  obtain ⟨s, hs⟩ := h1
  exact ⟨s, t, by rw [List.append_assoc, ht, hs]⟩

/-- Dropping a satisfied prefix twice is the same as dropping it once. -/
theorem dropWhile_dropWhile (p : Char → Bool) (l : List Char) :
    (l.dropWhile p).dropWhile p = l.dropWhile p := by
  induction l with
  | nil => rfl
  | cons a t ih =>
    by_cases h : p a = true
    · rw [List.dropWhile_cons_of_pos h, ih]
    · rw [List.dropWhile_cons_of_neg h, List.dropWhile_cons_of_neg h]

/-- The head surviving a `dropWhile` fails the predicate. -/
theorem dropWhile_head_false {p : Char → Bool} {l : List Char} {a : Char}
    {t : List Char} (h : l.dropWhile p = a :: t) : p a = false := by
  induction l with
  | nil => simp at h
  | cons x xs ih =>
    by_cases hx : p x = true
    · rw [List.dropWhile_cons_of_pos hx] at h
      exact ih h
    · rw [List.dropWhile_cons_of_neg hx] at h
      injection h with h1 h2
      subst h1
      simpa using hx

/-- Dropping trailing characters satisfying `p`. -/
def dropTrail (p : Char → Bool) (l : List Char) : List Char :=
  (l.reverse.dropWhile p).reverse

/-- `trimSpaces` is dropping the leading then the trailing spaces. -/
theorem trimSpaces_eq_dropTrail (l : List Char) :
    trimSpaces l = dropTrail isSpaceChar (l.dropWhile isSpaceChar) := rfl

/-- Dropping a trailing run twice is the same as dropping it once. -/
theorem dropTrail_dropTrail (p : Char → Bool) (l : List Char) :
    dropTrail p (dropTrail p l) = dropTrail p l := by
  simp [dropTrail, dropWhile_dropWhile]

/-- Dropping a trailing run shortens the list from the right only. -/
theorem dropTrail_prefix_self (p : Char → Bool) (l : List Char) :
    dropTrail p l <+: l := by
  rw [← List.reverse_suffix]
  simpa [dropTrail] using List.dropWhile_suffix (l := l.reverse) p

/-- Dropping the trailing run cannot expose a new leading run: if the list
had no leading `p`-character, the shortened list has none either. -/
theorem dropWhile_dropTrail (p : Char → Bool) (l : List Char) :
    (dropTrail p (l.dropWhile p)).dropWhile p = dropTrail p (l.dropWhile p) := by
  rcases hm : l.dropWhile p with _ | ⟨a, t⟩
  · simp [dropTrail]
  · rcases hd : dropTrail p (a :: t) with _ | ⟨b, s⟩
    · simp
    · have hpref : b :: s <+: a :: t := hd ▸ dropTrail_prefix_self p (a :: t)
      have hba : b = a := (List.cons_prefix_cons.mp hpref).1
      have hpa : p a = false := dropWhile_head_false hm
      rw [List.dropWhile_cons_of_neg (by rw [hba]; simp [hpa])]

/-- Trimming is idempotent. -/
theorem trimSpaces_trimSpaces (l : List Char) :
    trimSpaces (trimSpaces l) = trimSpaces l := by
  rw [trimSpaces_eq_dropTrail, trimSpaces_eq_dropTrail,
    dropWhile_dropTrail, dropTrail_dropTrail, ← trimSpaces_eq_dropTrail]

/-- Every character of a normalized list lies in the kept class. -/
theorem mem_normList_keep {a : Char} {l : List Char} (h : a ∈ normList l) :
    keepChar a = true := by
  unfold normList at h
  have h1 : a ∈ collapseSpaces ((l.map jsToLowerChar).filter keepChar) :=
    ((trimSpaces_le _).sublist.subset) h
  exact List.of_mem_filter (mem_collapseSpaces h1)

/-- A normalized list has no two adjacent spaces. -/
theorem noTwoSpaces_normList (l : List Char) : NoTwoSpaces (normList l) := by
  unfold normList NoTwoSpaces
  exact List.Chain'.infix (noTwoSpaces_collapseSpaces _) (trimSpaces_le _)

/-- `normList` is idempotent: its image consists of fixed points. -/
theorem normList_normList (l : List Char) :
    normList (normList l) = normList l := by
  have hkeep : ∀ c ∈ normList l, keepChar c = true := fun c hc => mem_normList_keep hc
  have hmap : (normList l).map jsToLowerChar = normList l :=
    map_jsToLowerChar_of_keep hkeep
  have hfil : (normList l).filter keepChar = normList l :=
    List.filter_eq_self.mpr hkeep
  have hcol : collapseSpaces (normList l) = normList l :=
    collapseSpaces_eq_self (noTwoSpaces_normList l)
  have htrim : trimSpaces (normList l) = normList l := by
    conv_lhs => rw [normList]
    rw [trimSpaces_trimSpaces, ← normList]
  calc normList (normList l)
      = trimSpaces (collapseSpaces (normList l)) := by
        rw [normList, hmap, hfil]
    _ = normList l := by rw [hcol, htrim]

/-- C9: the normalizer of src/server.js lines 51-57 is idempotent: for every
string `x`, `norm (norm x) = norm x`, where `norm` lowercases, strips every
character outside `[a-z0-9 space]`, collapses whitespace runs to one space,
and trims. -/
theorem C9_norm_idempotent (x : String) : norm (norm x) = norm x := by
  unfold norm
  exact congrArg String.mk (normList_normList x.data)

/-! ## Resolver claims: first-match behaviour of `findIdByName` -/

/-- `Array.prototype.find` semantics: if position `i` satisfies the predicate
and every earlier position fails it, `find?` returns the element at `i`. -/
theorem find?_eq_of_first {α : Type} (p : α → Bool) (l : List α) (i : Nat)
    (hi : i < l.length) (hp : p (l.get ⟨i, hi⟩) = true)
    (hfirst : ∀ j (hj : j < i), p (l.get ⟨j, hj.trans hi⟩) = false) :
    l.find? p = some (l.get ⟨i, hi⟩) := by
  induction l generalizing i with
  | nil => exact absurd hi (Nat.not_lt_zero i)
  | cons a t ih =>
    cases i with
    | zero => exact List.find?_cons_of_pos t hp
    | succ n =>
      have ha : p a = false := hfirst 0 (Nat.succ_pos n)
      rw [List.find?_cons_of_neg t (by simp [ha])]
      exact ih n (Nat.lt_of_succ_lt_succ hi) hp
        (fun j hj => hfirst (j + 1) (Nat.succ_lt_succ hj))

/-- C2 (corrected): provided the canonicalized phrase is non-empty, if the
entry at position `i` is the first whose canonicalized name equals the
canonicalized phrase exactly, the resolver returns its identifier — even when
another entry would qualify under the partial (substring) rule. -/
theorem C2_exact_first (l : List Entity) (phrase : String) (i : Nat)
    (hi : i < l.length) (hne : norm phrase ≠ "")
    (hp : norm (l.get ⟨i, hi⟩).name = norm phrase)
    (hfirst : ∀ j (hj : j < i), norm (l.get ⟨j, hj.trans hi⟩).name ≠ norm phrase) :
    findIdByName l (some phrase) = some (l.get ⟨i, hi⟩).id := by
  have hfind := find?_eq_of_first (exactMatch (norm phrase)) l i hi
    (decide_eq_true hp) (fun j hj => decide_eq_false (hfirst j hj))
  unfold findIdByName
  simp only [normOpt, Option.getD, if_neg hne, hfind]

/-- C2, claim as frozen, is false at a reference list in which the name of an
entry canonicalizes to the empty string: `norm "!"` equals `norm ""` exactly, yet
the resolver returns no match for the phrase `""` (the empty-target guard
fires before the exact pass), not the entry identifier `1`. -/
theorem C2_counterexample :
    norm "!" = norm "" ∧ findIdByName [⟨1, "!"⟩] (some "") = none := by decide

/-- Witness for `C2_exact_first`: on the very instance named by the claim,
`[{1,"Luffy"},{2,"Luffy Jr"}]` with phrase `"Luffy"`, the resolver
returns identifier 1. -/
theorem C2_witness :
    norm "Luffy" ≠ "" ∧
    findIdByName [⟨1, "Luffy"⟩, ⟨2, "Luffy Jr"⟩] (some "Luffy") = some 1 := by
  refine ⟨by decide, ?_⟩
  exact C2_exact_first [⟨1, "Luffy"⟩, ⟨2, "Luffy Jr"⟩] "Luffy" 0 (by decide)
    (by decide) (by decide) (fun j hj => absurd hj (Nat.not_lt_zero j))

/-- C3: when the canonicalized phrase is non-empty and no entry matches it
exactly, the resolver returns the identifier of the first entry (position
`i`) whose canonicalized name contains the canonicalized phrase as a
substring or is contained in it. -/
theorem C3_partial_first (l : List Entity) (phrase : String) (i : Nat)
    (hi : i < l.length) (hne : norm phrase ≠ "")
    (hnoexact : ∀ e ∈ l, norm e.name ≠ norm phrase)
    (hp : (containsStr (norm (l.get ⟨i, hi⟩).name) (norm phrase) ||
           containsStr (norm phrase) (norm (l.get ⟨i, hi⟩).name)) = true)
    (hfirst : ∀ j (hj : j < i),
      (containsStr (norm (l.get ⟨j, hj.trans hi⟩).name) (norm phrase) ||
       containsStr (norm phrase) (norm (l.get ⟨j, hj.trans hi⟩).name)) = false) :
    findIdByName l (some phrase) = some (l.get ⟨i, hi⟩).id := by
  have hnone : l.find? (exactMatch (norm phrase)) = none :=
    List.find?_eq_none.mpr fun x hx => by
      simpa [exactMatch] using hnoexact x hx
  have hpart := find?_eq_of_first (partialMatch (norm phrase)) l i hi hp hfirst
  unfold findIdByName
  simp only [normOpt, Option.getD, if_neg hne, hnone, hpart]

/-- Witness for `C3_partial_first`: on `[{1,"East Blue"}]`, phrase `"blue"`
(phrase inside name) and phrase `"the east blue sea"` (name inside phrase)
both resolve to identifier 1. -/
theorem C3_witness :
    findIdByName [⟨1, "East Blue"⟩] (some "blue") = some 1 ∧
    findIdByName [⟨1, "East Blue"⟩] (some "the east blue sea") = some 1 := by
  constructor
  · exact C3_partial_first [⟨1, "East Blue"⟩] "blue" 0 (by decide) (by decide)
      (by decide) (by decide) (fun j hj => absurd hj (Nat.not_lt_zero j))
  · exact C3_partial_first [⟨1, "East Blue"⟩] "the east blue sea" 0 (by decide)
      (by decide) (by decide) (by decide) (fun j hj => absurd hj (Nat.not_lt_zero j))

/-- C7: the resolver returns no-match for an empty canonicalized phrase
(including missing input, which `String(s || '')` turns into `""`), and
no-match when neither the exact pass nor the partial pass finds an entry. -/
theorem C7_no_match (l : List Entity) (spoken : Option String) :
    (normOpt spoken = "" → findIdByName l spoken = none) ∧
    ((∀ e ∈ l, norm e.name ≠ normOpt spoken) →
     (∀ e ∈ l, (containsStr (norm e.name) (normOpt spoken) ||
        containsStr (normOpt spoken) (norm e.name)) = false) →
     findIdByName l spoken = none) := by
  constructor
  · intro h
    unfold findIdByName
    rw [if_pos h]
  · intro hexact hpartial
    unfold findIdByName
    by_cases h : normOpt spoken = ""
    · rw [if_pos h]
    · rw [if_neg h,
        List.find?_eq_none.mpr (fun x hx => by simpa [exactMatch] using hexact x hx),
        List.find?_eq_none.mpr (fun x hx => by
          simp [partialMatch, hpartial x hx])]

/-- Witness for `C7_no_match`: on `[{1,"Alabasta"}]`, both the empty phrase
and the phrase `"zzz"` yield no-match, and so does a missing slot. -/
theorem C7_witness :
    findIdByName [⟨1, "Alabasta"⟩] (some "") = none ∧
    findIdByName [⟨1, "Alabasta"⟩] (some "zzz") = none ∧
    findIdByName [⟨1, "Alabasta"⟩] none = none := by
  refine ⟨?_, ?_, ?_⟩
  · exact (C7_no_match [⟨1, "Alabasta"⟩] (some "")).1 (by decide)
  · exact (C7_no_match [⟨1, "Alabasta"⟩] (some "zzz")).2 (by decide) (by decide)
  · exact (C7_no_match [⟨1, "Alabasta"⟩] none).1 (by decide)

/-! ## JavaScript numbers

The server converts every incoming numeric field with `Number(...)` and
gates persistence behind `Number.isFinite` / `Number.isInteger`. A
JavaScript number reaching those checks is NaN, a signed infinity, or a
finite value; the finite values the decimal-literal grammar can produce
are rationals. -/

/-- A JavaScript number: NaN, a signed infinity, or a finite rational. -/
inductive JNum where
  | nan : JNum
  | inf : Bool → JNum
  | fin : ℚ → JNum
deriving DecidableEq, Repr

/-- `Number.isFinite`. -/
def JNum.isFinite : JNum → Bool
  | .fin _ => true
  | _ => false

/-- `Number.isInteger`. -/
def JNum.isInteger : JNum → Bool
  | .fin q => decide (q.den = 1)
  | _ => false

/-- The integer value of an integral finite number (0 otherwise; the server
only reads this after an `isInteger` check). -/
def JNum.asInt : JNum → Int
  | .fin q => q.num
  | _ => 0

/-- Template-literal rendering of a number. Integral values print their
decimal digits, as in JavaScript; the server never renders a non-integral
or non-finite sensor value in the scenarios verified here, so those cases
keep a nominal rendering. -/
def JNum.render : JNum → String
  | .nan => "NaN"
  | .inf b => if b then "-Infinity" else "Infinity"
  | .fin q => if q.den = 1 then toString q.num else toString q

/-- The whitespace class trimmed by `Number(" 10 ")` before parsing. -/
def jsWhitespace (c : Char) : Bool :=
  decide (c.toNat = 32 ∨ c.toNat = 9 ∨ c.toNat = 10 ∨ c.toNat = 11 ∨
    c.toNat = 12 ∨ c.toNat = 13)

/-- ASCII decimal digit. -/
def isDigitChar (c : Char) : Bool := decide (48 ≤ c.toNat ∧ c.toNat ≤ 57)

/-- Value of a digit string read in base 10. -/
def digitsVal (l : List Char) : Nat :=
  l.foldl (fun a c => a * 10 + (c.toNat - 48)) 0

/-- Parse an unsigned decimal literal: `digits`, `digits.digits`,
`.digits` or `digits.` (at least one digit in total). Exponent,
hexadecimal and `Infinity` forms are outside the modelled input fragment
and parse to `none`; `Number` coercion turns `none` into NaN, which the
validation rejects exactly as it rejects genuinely non-numeric text. -/
def parseUnsigned (l : List Char) : Option ℚ :=
  let intPart := l.takeWhile isDigitChar
  let rest := l.dropWhile isDigitChar
  match rest with
  | [] => if intPart.isEmpty then none else some (digitsVal intPart : ℚ)
  | c :: fracPart =>
    if c = '.' ∧ fracPart.all isDigitChar ∧ (intPart ≠ [] ∨ fracPart ≠ []) then
      some ((digitsVal intPart : ℚ) + (digitsVal fracPart : ℚ) / (10 : ℚ) ^ fracPart.length)
    else none

/-- `Number(s)` for a string: trim whitespace, empty means 0, optional
sign, then an unsigned decimal literal; anything else is NaN. -/
def jsStringToNumber (s : String) : JNum :=
  let t := ((s.data.dropWhile jsWhitespace).reverse.dropWhile jsWhitespace).reverse
  match t with
  | [] => .fin 0
  | c :: rest =>
    if c = '-' then
      match parseUnsigned rest with
      | some q => .fin (-q)
      | none => .nan
    else if c = '+' then
      match parseUnsigned rest with
      | some q => .fin q
      | none => .nan
    else
      match parseUnsigned (c :: rest) with
      | some q => .fin q
      | none => .nan

/-! ## The relational store

`readings` rows with their AUTO_INCREMENT primary key, plus the two
reference tables `islands` and `characters`. -/

/-- A row of the `readings` table. -/
structure Reading where
  reading_id : Int
  ultrasonic_value : JNum
  lidar_value : JNum
  island_id : Int
  character_id : Int
deriving DecidableEq, Repr

/-- A row of the `readings INNER JOIN islands INNER JOIN characters`
select list used by the latest-reading queries. -/
structure JoinedReading where
  reading_id : Int
  ultrasonic_value : JNum
  lidar_value : JNum
  island_id : Int
  character_id : Int
  island_name : String
  character_name : String
deriving DecidableEq, Repr

/-- The database state: the three tables and the AUTO_INCREMENT counter of
`readings.reading_id`. -/
structure Db where
  readings : List Reading
  islands : List Entity
  characters : List Entity
  nextAutoId : Int
deriving DecidableEq, Repr

/-- The INNER JOIN of one reading with its island and character rows
(`island_id` and `character_id` are primary keys, so the first matching
row is the matching row); `none` when a referenced row is missing, in
which case the INNER JOIN drops the reading. -/
def joinOne (islands characters : List Entity) (r : Reading) : Option JoinedReading :=
  match islands.find? (fun i => decide (i.id = r.island_id)),
        characters.find? (fun c => decide (c.id = r.character_id)) with
  | some i, some c =>
    some ⟨r.reading_id, r.ultrasonic_value, r.lidar_value, r.island_id,
      r.character_id, i.name, c.name⟩
  | _, _ => none

/-- All joined rows, in `readings` order. -/
def joinRows (db : Db) : List JoinedReading :=
  db.readings.filterMap (joinOne db.islands db.characters)

/-- One step of `ORDER BY reading_id DESC LIMIT 1`: keep the row with the
greater identifier (the earlier row on a tie). -/
def pickLatest (acc : Option JoinedReading) (row : JoinedReading) : Option JoinedReading :=
  match acc with
  | none => some row
  | some best => if best.reading_id < row.reading_id then some row else some best

/-- `getLatestReading` (src/unnamed/part_001 lines 37-53, and the inline
query of src/server.js lines 104-120): the joined row with the maximum
`reading_id`, or `none` when there is no joined row. -/
def getLatestReading (db : Db) : Option JoinedReading :=
  (joinRows db).foldl pickLatest none

/-- Referential integrity of the store (its foreign-key constraints):
every reading joins to an existing island and character row. -/
def dbFK (db : Db) : Prop :=
  ∀ r ∈ db.readings, (joinOne db.islands db.characters r).isSome = true

instance (db : Db) : Decidable (dbFK db) := List.decidableBAll _ _

/-- Joining preserves the reading identifier. -/
theorem joinOne_reading_id {islands characters : List Entity} {r : Reading}
    {j : JoinedReading} (h : joinOne islands characters r = some j) :
    j.reading_id = r.reading_id := by
  unfold joinOne at h
  split at h
  · injection h with h'
    rw [← h']
  · exact absurd h (by simp)

/-- Folding `pickLatest` from a seed returns a row of the seed-or-list with
the maximum identifier among them. -/
theorem foldl_pickLatest_spec (l : List JoinedReading) (b : JoinedReading) :
    ∃ j, l.foldl pickLatest (some b) = some j ∧ (j = b ∨ j ∈ l) ∧
      b.reading_id ≤ j.reading_id ∧ ∀ x ∈ l, x.reading_id ≤ j.reading_id := by
  induction l generalizing b with
  | nil =>
    exact ⟨b, rfl, Or.inl rfl, le_refl _, fun x hx => absurd hx (List.not_mem_nil x)⟩
  | cons a t ih =>
    by_cases hlt : b.reading_id < a.reading_id
    · obtain ⟨j, hfold, hmem, hle, hall⟩ := ih a
      refine ⟨j, ?_, ?_, hlt.le.trans hle, ?_⟩
      · rw [List.foldl_cons]
        simpa [pickLatest, hlt] using hfold
      · exact Or.inr (hmem.elim (fun h => h ▸ List.mem_cons_self a t)
          (List.mem_cons_of_mem a))
      · intro x hx
        rcases List.mem_cons.mp hx with h | h
        · exact h ▸ hle
        · exact hall x h
    · obtain ⟨j, hfold, hmem, hle, hall⟩ := ih b
      refine ⟨j, ?_, ?_, hle, ?_⟩
      · rw [List.foldl_cons]
        simpa [pickLatest, hlt] using hfold
      · exact hmem.elim Or.inl (fun h => Or.inr (List.mem_cons_of_mem a h))
      · intro x hx
        rcases List.mem_cons.mp hx with h | h
        · exact h ▸ (Int.not_lt.mp hlt).trans hle
        · exact hall x h

/-- The fold over a nonempty row list returns its maximum-identifier row. -/
theorem foldl_pickLatest_cons (a : JoinedReading) (t : List JoinedReading) :
    ∃ j, (a :: t).foldl pickLatest none = some j ∧ j ∈ a :: t ∧
      ∀ x ∈ a :: t, x.reading_id ≤ j.reading_id := by
  obtain ⟨j, hfold, hmem, hle, hall⟩ := foldl_pickLatest_spec t a
  refine ⟨j, by simpa [List.foldl_cons, pickLatest] using hfold, ?_, ?_⟩
  · exact hmem.elim (fun h => h ▸ List.mem_cons_self a t) (List.mem_cons_of_mem a)
  · intro x hx
    rcases List.mem_cons.mp hx with h | h
    · exact h ▸ hle
    · exact hall x h

/-- C4: under the referential-integrity constraints of the store, the
latest-record locator returns `none` exactly when the reading set is empty;
any row it returns is the join of a stored reading whose identifier is
maximal over the set; and appending a reading with a higher identifier than
every stored one makes the locator return precisely the join of that reading. -/
theorem C4_latest_locator (db : Db) (hFK : dbFK db) :
    (getLatestReading db = none ↔ db.readings = []) ∧
    (∀ j, getLatestReading db = some j →
      (∃ r ∈ db.readings, joinOne db.islands db.characters r = some j) ∧
      ∀ r ∈ db.readings, r.reading_id ≤ j.reading_id) ∧
    (∀ r : Reading, (joinOne db.islands db.characters r).isSome = true →
      (∀ r2 ∈ db.readings, r2.reading_id < r.reading_id) →
      ∃ jr, joinOne db.islands db.characters r = some jr ∧
        getLatestReading { db with readings := db.readings ++ [r] } = some jr) := by
  refine ⟨⟨?_, ?_⟩, ?_, ?_⟩
  · intro hnone
    rcases hr : db.readings with _ | ⟨a, t⟩
    · rfl
    · exfalso
      obtain ⟨ja, hja⟩ := Option.isSome_iff_exists.mp (hFK a (hr ▸ List.mem_cons_self a t))
      have hjoin : joinRows db = ja :: t.filterMap (joinOne db.islands db.characters) := by
        unfold joinRows
        rw [hr, List.filterMap_cons_some hja]
      obtain ⟨j, hfold, -, -⟩ := foldl_pickLatest_cons ja
        (t.filterMap (joinOne db.islands db.characters))
      rw [getLatestReading, hjoin, hfold] at hnone
      exact Option.noConfusion hnone
  · intro hronly
    rw [getLatestReading, joinRows, hronly]
    rfl
  · intro j hj
    rcases hjr : joinRows db with _ | ⟨a, t⟩
    · rw [getLatestReading, hjr] at hj
      exact absurd hj (by simp)
    · obtain ⟨j', hfold, hmem, hall⟩ := foldl_pickLatest_cons a t
      rw [getLatestReading, hjr, hfold] at hj
      injection hj with hj
      subst hj
      constructor
      · have hmem' : j' ∈ joinRows db := by rw [hjr]; exact hmem
        exact List.mem_filterMap.mp hmem'
      · intro r hr
        obtain ⟨jr, hjoin⟩ := Option.isSome_iff_exists.mp (hFK r hr)
        have hjrmem : jr ∈ a :: t := by rw [← hjr]; exact List.mem_filterMap.mpr ⟨r, hr, hjoin⟩
        have := hall jr hjrmem
        rw [joinOne_reading_id hjoin] at this
        exact this
  · intro r hsome hmax
    obtain ⟨jr, hjoin⟩ := Option.isSome_iff_exists.mp hsome
    refine ⟨jr, hjoin, ?_⟩
    have happ : joinRows { db with readings := db.readings ++ [r] } =
        joinRows db ++ [jr] := by
      unfold joinRows
      simp only [List.filterMap_append]
      rw [List.filterMap_cons_some hjoin]
      rfl
    rw [getLatestReading, happ, List.foldl_append]
    rcases hjr : joinRows db with _ | ⟨a, t⟩
    · rfl
    · obtain ⟨best, hfold, hmem, -⟩ := foldl_pickLatest_cons a t
      rw [hfold, List.foldl_cons]
      have hmem' : best ∈ joinRows db := by rw [hjr]; exact hmem
      obtain ⟨r2, hr2, hjoin2⟩ := List.mem_filterMap.mp hmem'
      have hlt : best.reading_id < jr.reading_id := by
        rw [joinOne_reading_id hjoin2, joinOne_reading_id hjoin]
        exact hmax r2 hr2
      simp [pickLatest, hlt]

/-- Witness for `C4_latest_locator`: a one-reading store satisfying the
foreign-key constraints, on which the locator is not `none`. -/
theorem C4_witness :
    dbFK ⟨[⟨1, .fin 10, .fin 20, 1, 1⟩], [⟨1, "East Blue"⟩], [⟨1, "Luffy"⟩], 2⟩ ∧
    (getLatestReading
        ⟨[⟨1, .fin 10, .fin 20, 1, 1⟩], [⟨1, "East Blue"⟩], [⟨1, "Luffy"⟩], 2⟩ = none ↔
      (⟨[⟨1, .fin 10, .fin 20, 1, 1⟩], [⟨1, "East Blue"⟩], [⟨1, "Luffy"⟩], 2⟩ : Db).readings = []) :=
  ⟨by decide, (C4_latest_locator _ (by decide)).1⟩

/-! ## Alexa intent handlers (the operations of the command dispatcher) -/

/-- The single-quote character, used inside the spoken replies. -/
def sq : String := ⟨[Char.ofNat 39]⟩

/-- JavaScript truthiness of a resolver result, as tested by
`if (!character_id || !island_id)`: `null` and the number 0 are falsy,
every other whole number is truthy. -/
def jsIdTruthy : Option Int → Bool
  | none => false
  | some n => decide (n ≠ 0)

/-- What one handler invocation leaves behind: the spoken reply, the number
of INSERT / UPDATE / DELETE statements it issued against the store, and the
database state afterwards. -/
structure HandlerResult where
  speech : String
  insertCalls : Nat := 0
  updateCalls : Nat := 0
  deleteCalls : Nat := 0
  db : Db
deriving DecidableEq, Repr

/-- One step of the no-join `SELECT reading_id FROM readings ORDER BY
reading_id DESC LIMIT 1` used by the update and delete handlers. -/
def pickLatestId (acc : Option Int) (r : Reading) : Option Int :=
  match acc with
  | none => some r.reading_id
  | some m => if m < r.reading_id then some r.reading_id else some m

/-- The latest reading identifier: maximum `reading_id` over the reading
set, `none` when the set is empty. -/
def latestReadingId (db : Db) : Option Int :=
  db.readings.foldl pickLatestId none

/-- `UPDATE readings SET island_id = ?, character_id = ? WHERE reading_id = ?`. -/
def dbUpdateReading (db : Db) (rid island_id character_id : Int) : Db :=
  { db with readings := db.readings.map fun r =>
      if r.reading_id = rid then
        { r with island_id := island_id, character_id := character_id }
      else r }

/-- `DELETE FROM readings WHERE reading_id = ?`. -/
def dbDeleteReading (db : Db) (rid : Int) : Db :=
  { db with readings := db.readings.filter fun r => decide (r.reading_id ≠ rid) }

/-- `INSERT INTO readings (ultrasonic_value, lidar_value, island_id,
character_id) VALUES (?, ?, ?, ?)` with the AUTO_INCREMENT key. -/
def dbInsertReading (db : Db) (u l : JNum) (island_id character_id : Int) : Db :=
  { db with
    readings := db.readings ++ [⟨db.nextAutoId, u, l, island_id, character_id⟩],
    nextAutoId := db.nextAutoId + 1 }

/-- The could-not-match prompt of the update handler (src/server.js
lines 161-168). -/
def updateCouldNotMatch : String :=
  "I couldn" ++ sq ++ "t match that island or character. Try saying something like: update my scan to Luffy on East Blue."

/-- The nothing-to-update reply of the update handler (src/server.js
lines 178-182). -/
def updateNoScans : String :=
  "I do not see any scans to update yet. Send a scan first with the Arduino button."

/-- The nothing-to-delete reply of the delete handler (src/server.js
lines 223-227). -/
def deleteNoScans : String :=
  "There aren" ++ sq ++ "t any scans to delete yet."

/-- The could-not-match prompt of the save handler (src/server.js
lines 269-276). -/
def saveCouldNotMatch : String :=
  "Tell me an island and a character. For example: save a scan for Luffy on East Blue."

/-- The no-scans reply of the query handler (src/server.js lines 122-126). -/
def getNoScans : String :=
  "I couldn" ++ sq ++ "t find any scans yet. Press the button on the Arduino to send one."

/-- The composed reply of the query handler (src/server.js lines 129-131):
every variable part is interpolated verbatim. -/
def latestScanSpeech (characterName islandName uRender lRender : String) : String :=
  "Your latest scan says " ++ characterName ++ " on " ++ islandName ++
    ". Ultrasonic is " ++ uRender ++ " centimeters, and LiDAR is " ++
    lRender ++ " centimeters."

/-- `GetCharacterIntentHandler.handle` (src/server.js lines 102-140):
locate the latest joined reading and speak it; read-only. -/
def getCharacterHandle (db : Db) : HandlerResult :=
  match getLatestReading db with
  | none => { speech := getNoScans, db := db }
  | some latest =>
    { speech := latestScanSpeech latest.character_name latest.island_name
        latest.ultrasonic_value.render latest.lidar_value.render,
      db := db }

/-- `UpdateCharacterIntentHandler.handle` (src/server.js lines 152-202):
resolve both name slots against the reference lists (the module-scope
`ISLANDS` / `CHARACTERS` constants, passed here as parameters), bail out
with the could-not-match prompt when either resolver result is falsy, then
locate the latest reading and update it. -/
def updateCharacterHandle (islands characters : List Entity) (db : Db)
    (newCharacterName newIslandName : Option String) : HandlerResult :=
  let character_id := findIdByName characters newCharacterName
  let island_id := findIdByName islands newIslandName
  if !jsIdTruthy character_id || !jsIdTruthy island_id then
    { speech := updateCouldNotMatch, db := db }
  else
    match latestReadingId db with
    | none => { speech := updateNoScans, db := db }
    | some reading_id =>
      { speech := "Done. I updated your latest scan to " ++
          newCharacterName.getD "undefined" ++ " on " ++
          newIslandName.getD "undefined" ++ ".",
        updateCalls := 1,
        db := dbUpdateReading db reading_id (island_id.getD 0) (character_id.getD 0) }

/-- `DeleteScanIntentHandler.handle` (src/server.js lines 213-244): locate
the latest reading; with none, report nothing to delete; otherwise delete
that row. -/
def deleteScanHandle (db : Db) : HandlerResult :=
  match latestReadingId db with
  | none => { speech := deleteNoScans, db := db }
  | some reading_id =>
    { speech := "Deleted your latest scan.",
      deleteCalls := 1,
      db := dbDeleteReading db reading_id }

/-- `SaveScanIntentHandler.handle` (src/server.js lines 256-310): coerce the
optional numeric slots (`?? 0` then `Number`), resolve both name slots,
bail out with the could-not-match prompt when either resolver result is
falsy, validate, then insert. The source also checks
`Number.isInteger(island_id)` and `Number.isInteger(character_id)`, which
hold identically here because resolver results are whole numbers. -/
def saveScanHandle (islands characters : List Entity) (db : Db)
    (islandName characterName ultrasonicSlot lidarSlot : Option String) :
    HandlerResult :=
  let ultrasonic_value := match ultrasonicSlot with
    | none => JNum.fin 0
    | some s => jsStringToNumber s
  let lidar_value := match lidarSlot with
    | none => JNum.fin 0
    | some s => jsStringToNumber s
  let island_id := findIdByName islands islandName
  let character_id := findIdByName characters characterName
  if !jsIdTruthy island_id || !jsIdTruthy character_id then
    { speech := saveCouldNotMatch, db := db }
  else if !(ultrasonic_value.isFinite && lidar_value.isFinite) then
    { speech := "Invalid input. Please provide valid numbers and character names.",
      db := db }
  else
    { speech := "Saved. I added a scan for " ++ characterName.getD "undefined" ++
        " on " ++ islandName.getD "undefined" ++ ".",
      insertCalls := 1,
      db := dbInsertReading db ultrasonic_value lidar_value
        (island_id.getD 0) (character_id.getD 0) }

/-! ## Dispatcher claims -/

/-- C1: an update-latest request whose new-island slot (or new-character
slot) fails to resolve returns the could-not-match prompt, performs zero
persistence update calls, and leaves the store untouched. -/
theorem C1_update_unresolvable (islands characters : List Entity) (db : Db)
    (newCharacterName newIslandName : Option String)
    (h : findIdByName islands newIslandName = none ∨
      findIdByName characters newCharacterName = none) :
    (updateCharacterHandle islands characters db newCharacterName newIslandName).speech =
      updateCouldNotMatch ∧
    (updateCharacterHandle islands characters db newCharacterName newIslandName).updateCalls = 0 ∧
    (updateCharacterHandle islands characters db newCharacterName newIslandName).db = db := by
  rcases h with h | h <;> simp [updateCharacterHandle, h, jsIdTruthy]

/-- Witness for `C1_update_unresolvable`: against the hard-coded reference
lists, the island phrase Skypiea resolves to nothing, so the update handler
answers with the could-not-match prompt and issues no update. -/
theorem C1_witness :
    findIdByName ISLANDS (some "Skypiea") = none ∧
    ((updateCharacterHandle ISLANDS CHARACTERS ⟨[], ISLANDS, CHARACTERS, 1⟩
        (some "Luffy") (some "Skypiea")).speech = updateCouldNotMatch ∧
      (updateCharacterHandle ISLANDS CHARACTERS ⟨[], ISLANDS, CHARACTERS, 1⟩
        (some "Luffy") (some "Skypiea")).updateCalls = 0 ∧
      (updateCharacterHandle ISLANDS CHARACTERS ⟨[], ISLANDS, CHARACTERS, 1⟩
        (some "Luffy") (some "Skypiea")).db = ⟨[], ISLANDS, CHARACTERS, 1⟩) :=
  ⟨by decide, C1_update_unresolvable ISLANDS CHARACTERS ⟨[], ISLANDS, CHARACTERS, 1⟩
    (some "Luffy") (some "Skypiea") (Or.inl (by decide))⟩

/-- C5: a delete-latest request against an empty reading set returns the
nothing-to-delete utterance, performs zero persistence delete calls, and
leaves the reading set unchanged. -/
theorem C5_delete_empty (db : Db) (h : db.readings = []) :
    (deleteScanHandle db).speech = deleteNoScans ∧
    (deleteScanHandle db).deleteCalls = 0 ∧
    (deleteScanHandle db).db = db := by
  simp [deleteScanHandle, latestReadingId, h]

/-- Witness for `C5_delete_empty`: the empty store. -/
theorem C5_witness :
    (deleteScanHandle ⟨[], [], [], 1⟩).speech = deleteNoScans ∧
    (deleteScanHandle ⟨[], [], [], 1⟩).deleteCalls = 0 ∧
    (deleteScanHandle ⟨[], [], [], 1⟩).db = ⟨[], [], [], 1⟩ :=
  C5_delete_empty ⟨[], [], [], 1⟩ rfl

/-- A string occurs in a concatenation in which it is one of the parts. -/
theorem containsStr_of_parts (s x : String) (l1 l2 : List Char)
    (h : s.data = l1 ++ x.data ++ l2) : containsStr s x = true := by
  rw [containsStr, isInfixOfB_iff]
  exact ⟨l1, l2, h.symm⟩

/-- C8: whenever the latest joined reading exists, the query-latest reply
contains, verbatim, its character name, island name, and the renderings of
both sensor values. -/
theorem C8_query_speech (db : Db) (j : JoinedReading)
    (h : getLatestReading db = some j) :
    containsStr (getCharacterHandle db).speech j.character_name = true ∧
    containsStr (getCharacterHandle db).speech j.island_name = true ∧
    containsStr (getCharacterHandle db).speech j.ultrasonic_value.render = true ∧
    containsStr (getCharacterHandle db).speech j.lidar_value.render = true := by
  have hs : (getCharacterHandle db).speech = latestScanSpeech j.character_name
      j.island_name j.ultrasonic_value.render j.lidar_value.render := by
    simp [getCharacterHandle, h]
  rw [hs]
  refine ⟨?_, ?_, ?_, ?_⟩
  · exact containsStr_of_parts _ _ "Your latest scan says ".data
      ((" on " ++ j.island_name ++ ". Ultrasonic is " ++ j.ultrasonic_value.render ++
        " centimeters, and LiDAR is " ++ j.lidar_value.render ++ " centimeters.").data)
      (by simp [latestScanSpeech, List.append_assoc])
  · exact containsStr_of_parts _ _
      (("Your latest scan says " ++ j.character_name ++ " on ").data)
      ((". Ultrasonic is " ++ j.ultrasonic_value.render ++
        " centimeters, and LiDAR is " ++ j.lidar_value.render ++ " centimeters.").data)
      (by simp [latestScanSpeech, List.append_assoc])
  · exact containsStr_of_parts _ _
      (("Your latest scan says " ++ j.character_name ++ " on " ++ j.island_name ++
        ". Ultrasonic is ").data)
      ((" centimeters, and LiDAR is " ++ j.lidar_value.render ++ " centimeters.").data)
      (by simp [latestScanSpeech, List.append_assoc])
  · exact containsStr_of_parts _ _
      (("Your latest scan says " ++ j.character_name ++ " on " ++ j.island_name ++
        ". Ultrasonic is " ++ j.ultrasonic_value.render ++ " centimeters, and LiDAR is ").data)
      (" centimeters.".data)
      (by simp [latestScanSpeech, List.append_assoc])

/-- Witness for `C8_query_speech`: after inserting the reading
(ultrasonic 10, lidar 20, island East Blue, character Luffy), the reply
contains Luffy, East Blue, 10 and 20. -/
theorem C8_witness :
    getLatestReading ⟨[⟨1, .fin 10, .fin 20, 1, 1⟩], [⟨1, "East Blue"⟩],
        [⟨1, "Luffy"⟩], 2⟩ =
      some ⟨1, .fin 10, .fin 20, 1, 1, "East Blue", "Luffy"⟩ ∧
    (containsStr (getCharacterHandle ⟨[⟨1, .fin 10, .fin 20, 1, 1⟩],
        [⟨1, "East Blue"⟩], [⟨1, "Luffy"⟩], 2⟩).speech "Luffy" = true ∧
      containsStr (getCharacterHandle ⟨[⟨1, .fin 10, .fin 20, 1, 1⟩],
        [⟨1, "East Blue"⟩], [⟨1, "Luffy"⟩], 2⟩).speech "East Blue" = true ∧
      containsStr (getCharacterHandle ⟨[⟨1, .fin 10, .fin 20, 1, 1⟩],
        [⟨1, "East Blue"⟩], [⟨1, "Luffy"⟩], 2⟩).speech "10" = true ∧
      containsStr (getCharacterHandle ⟨[⟨1, .fin 10, .fin 20, 1, 1⟩],
        [⟨1, "East Blue"⟩], [⟨1, "Luffy"⟩], 2⟩).speech "20" = true) := by
  refine ⟨by decide, ?_⟩
  exact C8_query_speech ⟨[⟨1, .fin 10, .fin 20, 1, 1⟩], [⟨1, "East Blue"⟩],
    [⟨1, "Luffy"⟩], 2⟩ ⟨1, .fin 10, .fin 20, 1, 1, "East Blue", "Luffy"⟩ (by decide)

/-- C10 (implicit behaviour): a reference entity with identifier 0 is
indistinguishable from a failed resolution: when a slot resolves (even
exactly) to identifier 0, the truthiness test `!island_id || !character_id`
sends both the update-latest and the save-new operations down the
could-not-match branch with zero persistence calls. -/
theorem C10_zero_id (islands characters : List Entity) (db : Db)
    (islandName characterName ultrasonicSlot lidarSlot : Option String)
    (h : findIdByName islands islandName = some 0 ∨
      findIdByName characters characterName = some 0) :
    ((updateCharacterHandle islands characters db characterName islandName).speech =
        updateCouldNotMatch ∧
      (updateCharacterHandle islands characters db characterName islandName).updateCalls = 0 ∧
      (updateCharacterHandle islands characters db characterName islandName).db = db) ∧
    ((saveScanHandle islands characters db islandName characterName
        ultrasonicSlot lidarSlot).speech = saveCouldNotMatch ∧
      (saveScanHandle islands characters db islandName characterName
        ultrasonicSlot lidarSlot).insertCalls = 0 ∧
      (saveScanHandle islands characters db islandName characterName
        ultrasonicSlot lidarSlot).db = db) := by
  rcases h with h | h <;>
    exact ⟨by simp [updateCharacterHandle, h, jsIdTruthy],
      by simp [saveScanHandle, h, jsIdTruthy]⟩

/-- Witness for `C10_zero_id`: the phrase Skypiea resolves exactly to the
entry with identifier 0, yet both mutating handlers take the
could-not-match branch. -/
theorem C10_witness :
    findIdByName [⟨0, "Skypiea"⟩] (some "Skypiea") = some 0 ∧
    ((updateCharacterHandle [⟨0, "Skypiea"⟩] CHARACTERS ⟨[], [], [], 1⟩
        (some "Luffy") (some "Skypiea")).updateCalls = 0 ∧
      (saveScanHandle [⟨0, "Skypiea"⟩] CHARACTERS ⟨[], [], [], 1⟩
        (some "Skypiea") (some "Luffy") none none).insertCalls = 0) := by
  refine ⟨by decide, ?_, ?_⟩
  · exact (C10_zero_id [⟨0, "Skypiea"⟩] CHARACTERS ⟨[], [], [], 1⟩
      (some "Skypiea") (some "Luffy") none none (Or.inl (by decide))).1.2.1
  · exact (C10_zero_id [⟨0, "Skypiea"⟩] CHARACTERS ⟨[], [], [], 1⟩
      (some "Skypiea") (some "Luffy") none none (Or.inl (by decide))).2.2.1

/-! ## The REST surface: POST /addReading (src/server.js lines 428-477) -/

/-- A JSON value as it can appear in a request-body field, restricted to
the fragment `Number(...)` coercion distinguishes. A missing field reads
as `undefined`. -/
inductive JsValue where
  | undef : JsValue
  | null : JsValue
  | bool : Bool → JsValue
  | num : ℚ → JsValue
  | str : String → JsValue
deriving DecidableEq, Repr

/-- `Number(x)` coercion of a body field: `undefined` is NaN, `null` is 0,
booleans are 0 and 1, JSON numbers are themselves (the JSON grammar only
produces finite decimals), strings are parsed. -/
def jsToNumber : JsValue → JNum
  | .undef => .nan
  | .null => .fin 0
  | .bool b => .fin (if b then 1 else 0)
  | .num q => .fin q
  | .str s => jsStringToNumber s

/-- The JSON body of a POST /addReading request. -/
structure AddReadingBody where
  ultrasonic_value : JsValue
  lidar_value : JsValue
  island_id : JsValue
  character_id : JsValue
deriving DecidableEq, Repr

/-- Outcome of one REST request: the HTTP status, the message field of the
JSON reply, the number of INSERT statements issued, and the store
afterwards. -/
structure RestResult where
  status : Nat
  message : String
  insertCalls : Nat := 0
  db : Db
deriving DecidableEq, Repr

/-- The descriptive rejection message of the route (src/server.js
lines 443-448). -/
def addReadingInvalidMsg : String :=
  "Invalid input. Send ultrasonic_value, lidar_value (numbers) and island_id, character_id (integers)."

/-- The POST /addReading route (src/server.js lines 428-477): coerce the
four body fields with `Number`, reject with HTTP 400 and the descriptive
message unless both sensor values are finite and both identifiers are
integers, and only otherwise run the INSERT (a plain `res.json` reply
carries the default status 200). -/
def addReadingRoute (db : Db) (body : AddReadingBody) : RestResult :=
  let ultrasonic_value := jsToNumber body.ultrasonic_value
  let lidar_value := jsToNumber body.lidar_value
  let island_id := jsToNumber body.island_id
  let character_id := jsToNumber body.character_id
  if !ultrasonic_value.isFinite || !lidar_value.isFinite ||
      !island_id.isInteger || !character_id.isInteger then
    { status := 400, message := addReadingInvalidMsg, db := db }
  else
    { status := 200, message := "Reading added", insertCalls := 1,
      db := dbInsertReading db ultrasonic_value lidar_value
        island_id.asInt character_id.asInt }

/-- C6: a POST /addReading body whose ultrasonic or lidar field is
non-numeric (coerces to NaN) or whose island or character identifier is not
an integer is answered with status 400 and the descriptive message, with
zero persistence calls and the reading set unchanged. -/
theorem C6_addReading_validation (db : Db) (body : AddReadingBody)
    (h : jsToNumber body.ultrasonic_value = .nan ∨
      jsToNumber body.lidar_value = .nan ∨
      (jsToNumber body.island_id).isInteger = false ∨
      (jsToNumber body.character_id).isInteger = false) :
    (addReadingRoute db body).status = 400 ∧
    (addReadingRoute db body).message = addReadingInvalidMsg ∧
    (addReadingRoute db body).insertCalls = 0 ∧
    (addReadingRoute db body).db = db := by
  have hcond : (!(jsToNumber body.ultrasonic_value).isFinite ||
      !(jsToNumber body.lidar_value).isFinite ||
      !(jsToNumber body.island_id).isInteger ||
      !(jsToNumber body.character_id).isInteger) = true := by
    rcases h with h | h | h | h <;> simp [h, JNum.isFinite]
  simp [addReadingRoute, hcond]

/-- Witness for `C6_addReading_validation`: the body
`(ultrasonic_value: "abc", lidar_value: 20, island_id: 1, character_id: 1)`
is rejected with status 400 and no insert. -/
theorem C6_witness :
    jsToNumber (JsValue.str "abc") = JNum.nan ∧
    ((addReadingRoute ⟨[], [], [], 1⟩ ⟨.str "abc", .num 20, .num 1, .num 1⟩).status = 400 ∧
      (addReadingRoute ⟨[], [], [], 1⟩ ⟨.str "abc", .num 20, .num 1, .num 1⟩).message =
        addReadingInvalidMsg ∧
      (addReadingRoute ⟨[], [], [], 1⟩ ⟨.str "abc", .num 20, .num 1, .num 1⟩).insertCalls = 0 ∧
      (addReadingRoute ⟨[], [], [], 1⟩ ⟨.str "abc", .num 20, .num 1, .num 1⟩).db =
        ⟨[], [], [], 1⟩) :=
  ⟨by decide, C6_addReading_validation ⟨[], [], [], 1⟩
    ⟨.str "abc", .num 20, .num 1, .num 1⟩ (Or.inl (by decide))⟩

end Srv
